import Mathlib

/-!
# Verification of the Gemini client audio/codec core

Shallow embedding of the pure core of `src/services/geminiService.ts`:
the base64 codec (`encode`/`decode`), the WAV container writer
(`pcmToWav`), the PCM frame decoder (`decodeAudioData`), the video
long-running-operation poller (`pollVeoOperation`), and the live audio
session's playback-scheduling, interruption and close logic
(`startLiveConversation`).

Bytes are modelled as `Nat` values below 256, byte buffers as
`List Nat`, strings of character codes as `List Nat`, JS numbers as
`Nat`/`Int`/`ℚ` with explicit wrap-around where the code relies on it.
-/

namespace GeminiService

/-- Base64 alphabet: the ASCII code of the character for sextet `n` (0..63),
as used by `btoa`. -/
def b64Char (n : Nat) : Nat :=
  if n < 26 then 65 + n
  else if n < 52 then 97 + (n - 26)
  else if n < 62 then 48 + (n - 52)
  else if n = 62 then 43
  else 47

/-- Inverse base64 alphabet used by `atob`: ASCII code to sextet, `none` on a
character outside the alphabet. -/
def b64Index (c : Nat) : Option Nat :=
  if 65 ≤ c ∧ c ≤ 90 then some (c - 65)
  else if 97 ≤ c ∧ c ≤ 122 then some (c - 97 + 26)
  else if 48 ≤ c ∧ c ≤ 57 then some (c - 48 + 52)
  else if c = 43 then some 62
  else if c = 47 then some 63
  else none

/-- `encode` from `src/services/geminiService.ts` (lines 19–26): builds a
binary string from the bytes with `String.fromCharCode` and applies `btoa`.
`btoa` emits one base64 quartet per three input bytes, padding the final
group with `=` (ASCII 61). -/
def encode : List Nat → List Nat
  | [] => []
  | [a] => [b64Char (a / 4), b64Char (a % 4 * 16), 61, 61]
  | [a, b] => [b64Char (a / 4), b64Char (a % 4 * 16 + b / 16), b64Char (b % 16 * 4), 61]
  | a :: b :: c :: rest =>
      b64Char (a / 4) :: b64Char (a % 4 * 16 + b / 16) ::
        b64Char (b % 16 * 4 + c / 64) :: b64Char (c % 64) :: encode rest

/-- `decode` from `src/services/geminiService.ts` (lines 8–16): applies `atob`
and reads the resulting binary string back into bytes with `charCodeAt`.
`atob` performs forgiving-base64 decoding: quartets of alphabet characters,
`=` padding only at the end, leftover bits discarded; a malformed input
throws, modelled as `none`. -/
def decode : List Nat → Option (List Nat)
  | [] => some []
  | c0 :: c1 :: c2 :: c3 :: rest =>
      if c3 = 61 then
        if rest = [] then
          if c2 = 61 then
            (b64Index c0).bind fun s0 =>
              (b64Index c1).bind fun s1 =>
                some [s0 * 4 + s1 / 16]
          else
            (b64Index c0).bind fun s0 =>
              (b64Index c1).bind fun s1 =>
                (b64Index c2).bind fun s2 =>
                  some [s0 * 4 + s1 / 16, s1 % 16 * 16 + s2 / 4]
        else none
      else
        (b64Index c0).bind fun s0 =>
          (b64Index c1).bind fun s1 =>
            (b64Index c2).bind fun s2 =>
              (b64Index c3).bind fun s3 =>
                (decode rest).bind fun tail =>
                  some ((s0 * 4 + s1 / 16) :: (s1 % 16 * 16 + s2 / 4) :: (s2 % 4 * 64 + s3) :: tail)
  | _ => none

theorem b64Index_b64Char : ∀ s < 64, b64Index (b64Char s) = some s := by
  decide

theorem b64Char_ne_61 : ∀ s < 64, b64Char s ≠ 61 := by
  decide

theorem decode_pad2 (c0 c1 : Nat) :
    decode [c0, c1, 61, 61] =
      (b64Index c0).bind fun s0 =>
        (b64Index c1).bind fun s1 => some [s0 * 4 + s1 / 16] := by
  simp [decode]

theorem decode_pad1 (c0 c1 c2 : Nat) (h : c2 ≠ 61) :
    decode [c0, c1, c2, 61] =
      (b64Index c0).bind fun s0 =>
        (b64Index c1).bind fun s1 =>
          (b64Index c2).bind fun s2 =>
            some [s0 * 4 + s1 / 16, s1 % 16 * 16 + s2 / 4] := by
  simp [decode, h]

theorem decode_quartet (c0 c1 c2 c3 : Nat) (rest : List Nat) (h : c3 ≠ 61) :
    decode (c0 :: c1 :: c2 :: c3 :: rest) =
      (b64Index c0).bind fun s0 =>
        (b64Index c1).bind fun s1 =>
          (b64Index c2).bind fun s2 =>
            (b64Index c3).bind fun s3 =>
              (decode rest).bind fun tail =>
                some ((s0 * 4 + s1 / 16) :: (s1 % 16 * 16 + s2 / 4) :: (s2 % 4 * 64 + s3) :: tail) := by
  simp [decode, h]

/-- C1. For every byte sequence `b` (each byte below 256), decoding the
base64 text produced by encoding `b` returns exactly `b`:
`decode (encode b) = some b`. -/
theorem decode_encode (bytes : List Nat) (h : ∀ x ∈ bytes, x < 256) :
    decode (encode bytes) = some bytes := by
  induction bytes using encode.induct with
  | case1 =>
      rfl
  | case2 a =>
      have ha : a < 256 := h a (by simp)
      rw [encode, decode_pad2,
        b64Index_b64Char _ (by omega), b64Index_b64Char _ (by omega)]
      simp only [Option.bind_eq_bind, Option.some_bind, Option.some.injEq,
        List.cons.injEq, and_true]
      omega
  | case3 a b =>
      have ha : a < 256 := h a (by simp)
      have hb : b < 256 := h b (by simp)
      rw [encode, decode_pad1 _ _ _ (b64Char_ne_61 _ (by omega)),
        b64Index_b64Char _ (by omega), b64Index_b64Char _ (by omega),
        b64Index_b64Char _ (by omega)]
      simp only [Option.bind_eq_bind, Option.some_bind, Option.some.injEq,
        List.cons.injEq, and_true]
      constructor <;> omega
  | case4 a b c rest ih =>
      have ha : a < 256 := h a (by simp)
      have hb : b < 256 := h b (by simp)
      have hc : c < 256 := h c (by simp)
      have hrest : ∀ x ∈ rest, x < 256 := fun x hx => h x (by simp [hx])
      rw [encode, decode_quartet _ _ _ _ _ (b64Char_ne_61 _ (by omega)),
        b64Index_b64Char _ (by omega), b64Index_b64Char _ (by omega),
        b64Index_b64Char _ (by omega), b64Index_b64Char _ (by omega),
        ih hrest]
      simp only [Option.bind_eq_bind, Option.some_bind, Option.some.injEq,
        List.cons.injEq, and_true]
      refine ⟨by omega, by omega, by omega⟩

/-- Witness for C1 at the concrete byte sequence `[0, 77, 255, 128]`. -/
theorem decode_encode_witness :
    (∀ x ∈ [0, 77, 255, 128], x < 256) ∧
      decode (encode [0, 77, 255, 128]) = some [0, 77, 255, 128] :=
  ⟨by decide, decode_encode [0, 77, 255, 128] (by decide)⟩

/-! ## WAV container writer (`pcmToWav`) -/

/-- `DataView.setUint16(off, n, true)`: the two bytes written, little-endian,
after JS `ToUint32`-style wrap-around to 16 bits. -/
def u16le (n : Nat) : List Nat := [n % 256, n / 256 % 256]

/-- `DataView.setUint32(off, n, true)`: the four bytes written, little-endian,
after wrap-around to 32 bits. -/
def u32le (n : Nat) : List Nat :=
  [n % 256, n / 256 % 256, n / 65536 % 256, n / 16777216 % 256]

/-- `pcmToWav` from `src/services/geminiService.ts` (lines 56–84): the byte
contents of the produced `Blob` — a 44-byte RIFF/WAVE header followed by the
raw PCM payload.  Byte-rate and block-align are computed as in the source
(`sampleRate * numChannels * (bitsPerSample / 8)` with the truncation `setUint32`
applies to the JS float). -/
def pcmToWav (pcmData : List Nat) (sampleRate numChannels bitsPerSample : Nat) : List Nat :=
  [82, 73, 70, 70] ++ u32le (36 + pcmData.length) ++ [87, 65, 86, 69] ++
    [102, 109, 116, 32] ++ u32le 16 ++ u16le 1 ++ u16le numChannels ++ u32le sampleRate ++
    u32le (sampleRate * numChannels * bitsPerSample / 8) ++
    u16le (numChannels * bitsPerSample / 8) ++
    u16le bitsPerSample ++ [100, 97, 116, 97] ++ u32le pcmData.length ++ pcmData

/-- Read back a little-endian 32-bit field at byte offset `off`. -/
def readU32At (w : List Nat) (off : Nat) : Nat :=
  w.getD off 0 + 256 * w.getD (off + 1) 0 + 65536 * w.getD (off + 2) 0 +
    16777216 * w.getD (off + 3) 0

/-- Read back a little-endian 16-bit field at byte offset `off`. -/
def readU16At (w : List Nat) (off : Nat) : Nat :=
  w.getD off 0 + 256 * w.getD (off + 1) 0

/-- C2. For every PCM payload (with `36 + length` within 32 bits), `pcmToWav`
produces a buffer whose first 44 bytes are a canonical little-endian WAV
header — bytes 0–3 "RIFF", bytes 8–11 "WAVE", ChunkSize (bytes 4–7) equal to
36 plus the payload length, audio-format field (bytes 20–21) equal to 1,
Subchunk2Size (bytes 40–43) equal to the payload length — followed
immediately by the raw PCM payload unchanged. -/
theorem pcmToWav_header (d : List Nat) (sr ch bps : Nat)
    (h : 36 + d.length < 4294967296) :
    (pcmToWav d sr ch bps).length = 44 + d.length ∧
    (pcmToWav d sr ch bps).take 4 = [82, 73, 70, 70] ∧
    ((pcmToWav d sr ch bps).drop 8).take 4 = [87, 65, 86, 69] ∧
    readU32At (pcmToWav d sr ch bps) 4 = 36 + d.length ∧
    readU16At (pcmToWav d sr ch bps) 20 = 1 ∧
    readU32At (pcmToWav d sr ch bps) 40 = d.length ∧
    (pcmToWav d sr ch bps).drop 44 = d := by
  refine ⟨?_, ?_, ?_, ?_, ?_, ?_, ?_⟩ <;>
    simp [pcmToWav, u32le, u16le, readU32At, readU16At] <;> omega

/-- Witness for C2 at a concrete three-byte payload. -/
theorem pcmToWav_header_witness :
    36 + [10, 20, 30].length < 4294967296 ∧
      readU32At (pcmToWav [10, 20, 30] 24000 1 16) 4 = 36 + [10, 20, 30].length ∧
      (pcmToWav [10, 20, 30] 24000 1 16).drop 44 = [10, 20, 30] :=
  ⟨by decide,
    (pcmToWav_header [10, 20, 30] 24000 1 16 (by decide)).2.2.2.1,
    (pcmToWav_header [10, 20, 30] 24000 1 16 (by decide)).2.2.2.2.2.2⟩

/-! ## Long-running-operation poller (`pollVeoOperation`) -/

/-- `VeoGenerationState` from `src/components/LiveConversation.tsx`
(lines 160–165): the snapshot type yielded by the poller. -/
structure VeoGenerationState where
  progress : Nat
  message : String
  videoUrl : Option String
  error : Option String
deriving Repr, DecidableEq

/-- The video operation handle as consumed by `pollVeoOperation`:
its `done` flag and the result URI read from
`response?.generatedVideos?.[0]?.video?.uri`. -/
structure Operation where
  done : Bool
  uri : Option String
deriving Repr, DecidableEq

/-- Outcome of one `ai.operations.getVideosOperation` call inside the poll
loop: either the fetch throws, or it returns a refreshed operation. -/
inductive PollResult where
  | fetchError (msg : String)
  | ok (op : Operation)
deriving Repr, DecidableEq

/-- The snapshot emitted once `currentOperation.done` holds
(`src/services/geminiService.ts` lines 235–241): success with the download
URI (API key appended) when present, failure otherwise. -/
def veoTerminal (apiKey : String) (current : Operation) : VeoGenerationState :=
  match current.uri with
  | some uri =>
      { progress := 100, message := "Video generated successfully!",
        videoUrl := some (uri ++ "&key=" ++ apiKey), error := none }
  | none =>
      { progress := 100, message := "Generation failed to produce a video.",
        videoUrl := none, error := some "No video URI found in response." }

/-- The `while (!currentOperation.done)` loop of `pollVeoOperation`
(`src/services/geminiService.ts` lines 222–241), driven by the list of
successive fetch outcomes; an exhausted list models a poller still waiting
(trace prefix). -/
def pollLoop (apiKey : String) : Operation → Nat → List PollResult → List VeoGenerationState
  | current, _, [] =>
      if current.done then [veoTerminal apiKey current] else []
  | current, progress, r :: rest =>
      if current.done then [veoTerminal apiKey current]
      else
        match r with
        | .fetchError msg =>
            [{ progress := 100, message := "Polling failed.", videoUrl := none,
               error := some msg }]
        | .ok next =>
            { progress := min (progress + 5) 95, message := "Processing video...",
              videoUrl := none, error := none } ::
              pollLoop apiKey next (min (progress + 5) 95) rest

theorem veoTerminal_progress (apiKey : String) (current : Operation) :
    (veoTerminal apiKey current).progress = 100 ∧
      ((veoTerminal apiKey current).videoUrl ≠ none ∨
        (veoTerminal apiKey current).error ≠ none) := by
  cases h : current.uri <;> simp [veoTerminal, h]

/-- `pollVeoOperation` from `src/services/geminiService.ts` (lines 217–242):
emits the initial snapshot at progress 10, then runs the poll loop. -/
def pollVeoOperation (apiKey : String) (operation : Operation) (polls : List PollResult) :
    List VeoGenerationState :=
  { progress := 10, message := "Operation started. Waiting for completion...",
    videoUrl := none, error := none } :: pollLoop apiKey operation 10 polls

theorem pollLoop_chain (apiKey : String) (polls : List PollResult) :
    ∀ (current : Operation) (p : Nat), p ≤ 95 →
      List.Chain (· ≤ ·) p ((pollLoop apiKey current p polls).map (·.progress)) := by
  induction polls with
  | nil =>
      intro current p hp
      rw [pollLoop]
      split
      · simp [(veoTerminal_progress apiKey current).1]; omega
      · simp
  | cons head tail ih =>
      intro current p hp
      cases head with
      | fetchError msg =>
          rw [pollLoop]
          split
          · simp [(veoTerminal_progress apiKey current).1]; omega
          · simp; omega
      | ok next =>
          rw [pollLoop]
          split
          · simp [(veoTerminal_progress apiKey current).1]; omega
          · simp only [List.map_cons]
            exact List.Chain.cons (by simp; omega) (ih next _ (by omega))

theorem pollLoop_progress_bounds (apiKey : String) (polls : List PollResult) :
    ∀ (current : Operation) (p : Nat), p ≤ 95 →
      ∀ e ∈ pollLoop apiKey current p polls,
        (e.videoUrl = none ∧ e.error = none → e.progress ≤ 95) ∧
        (e.videoUrl ≠ none ∨ e.error ≠ none → e.progress = 100) := by
  induction polls with
  | nil =>
      intro current p hp e he
      rw [pollLoop] at he
      split at he
      · simp only [List.mem_singleton] at he
        subst he
        have := veoTerminal_progress apiKey current
        exact ⟨fun hn => absurd this.2 (by simp [hn.1, hn.2]), fun _ => this.1⟩
      · simp at he
  | cons head tail ih =>
      intro current p hp e he
      cases head with
      | fetchError msg =>
          rw [pollLoop] at he
          split at he
          · simp only [List.mem_singleton] at he
            subst he
            have := veoTerminal_progress apiKey current
            exact ⟨fun hn => absurd this.2 (by simp [hn.1, hn.2]), fun _ => this.1⟩
          · simp only [List.mem_singleton] at he
            subst he
            exact ⟨fun hn => by simp at hn, fun _ => rfl⟩
      | ok next =>
          rw [pollLoop] at he
          split at he
          · simp only [List.mem_singleton] at he
            subst he
            have := veoTerminal_progress apiKey current
            exact ⟨fun hn => absurd this.2 (by simp [hn.1, hn.2]), fun _ => this.1⟩
          · simp only [List.mem_cons] at he
            rcases he with rfl | he
            · exact ⟨fun _ => by simp, fun hc => by simp at hc⟩
            · exact ih next _ (by omega) e he

theorem pollLoop_replicate_map (apiKey : String) :
    ∀ (n : Nat) (p : Nat),
      (pollLoop apiKey ⟨false, none⟩ p
          (List.replicate n (.ok ⟨false, none⟩))).map (·.progress)
        = (List.range n).map (fun j => min (p + 5 * (j + 1)) 95) := by
  intro n
  induction n with
  | zero => intro p; rw [List.replicate_zero, pollLoop]; simp
  | succ m ih =>
      intro p
      rw [List.replicate_succ, pollLoop]
      simp only [List.range_succ_eq_map, List.map_cons, List.map_map]
      rw [if_neg (by simp)]
      simp only [List.map_cons]
      refine congrArg₂ _ (by simp) ?_
      rw [ih]
      refine List.map_congr_left fun j _ => ?_
      simp only [Function.comp_apply]
      omega

/-- C3. The poller's emitted progress values start at 10 on entry, increase
by 5 per successful non-terminal poll (capped at 95), are monotonically
non-decreasing, never exceed 95 before a terminal state, and equal 100
exactly on the terminal (success or failure) snapshot. -/
theorem pollVeo_progress_invariant (apiKey : String) (op : Operation)
    (polls : List PollResult) :
    ((pollVeoOperation apiKey op polls).map (·.progress)).head? = some 10 ∧
    List.Chain' (· ≤ ·) ((pollVeoOperation apiKey op polls).map (·.progress)) ∧
    (∀ e ∈ pollVeoOperation apiKey op polls,
      (e.videoUrl = none ∧ e.error = none → e.progress ≤ 95) ∧
      (e.videoUrl ≠ none ∨ e.error ≠ none → e.progress = 100)) ∧
    (∀ n : Nat,
      (pollVeoOperation apiKey ⟨false, none⟩
          (List.replicate n (.ok ⟨false, none⟩))).map (·.progress)
        = (List.range (n + 1)).map (fun j => min (10 + 5 * j) 95)) := by
  refine ⟨rfl, ?_, ?_, ?_⟩
  · rw [pollVeoOperation]
    simp only [List.map_cons]
    exact pollLoop_chain apiKey polls op 10 (by omega)
  · intro e he
    rw [pollVeoOperation, List.mem_cons] at he
    rcases he with rfl | he
    · exact ⟨fun _ => by decide, fun hc => by simp at hc⟩
    · exact pollLoop_progress_bounds apiKey polls op 10 (by omega) e he
  · intro n
    rw [pollVeoOperation]
    simp only [List.map_cons, List.range_succ_eq_map, List.map_map]
    refine congrArg₂ List.cons (by decide) ?_
    rw [pollLoop_replicate_map]
    refine List.map_congr_left fun j _ => ?_
    simp only [Function.comp_apply]

/-- Witness for C3: the inner hypotheses discharged on the concrete
two-poll trace ending in a successful fetch. -/
theorem pollVeo_progress_invariant_witness :
    ∀ e ∈ pollVeoOperation "k" ⟨false, none⟩ [.ok ⟨true, some "u"⟩],
      (e.videoUrl = none ∧ e.error = none → e.progress ≤ 95) ∧
      (e.videoUrl ≠ none ∨ e.error ≠ none → e.progress = 100) :=
  (pollVeo_progress_invariant "k" ⟨false, none⟩ [.ok ⟨true, some "u"⟩]).2.2.1

theorem pollLoop_fetchError_append (apiKey msg : String) (rest : List PollResult) :
    ∀ (n : Nat) (p : Nat),
      pollLoop apiKey ⟨false, none⟩ p
          (List.replicate n (.ok ⟨false, none⟩) ++ .fetchError msg :: rest)
        = pollLoop apiKey ⟨false, none⟩ p (List.replicate n (.ok ⟨false, none⟩)) ++
            [{ progress := 100, message := "Polling failed.", videoUrl := none,
               error := some msg }] := by
  intro n
  induction n with
  | zero =>
      intro p
      simp [pollLoop]
  | succ m ih =>
      intro p
      rw [List.replicate_succ, List.cons_append]
      simp only [pollLoop]
      simp [ih]

/-- C4. A fetch failure at any point makes the poller immediately emit
exactly one terminal snapshot — progress 100, non-null error — and nothing
afterwards: the trace equals the error-free prefix trace followed by that
single terminal snapshot, and any further fetch outcomes (`rest`) are
ignored (no retry). -/
theorem pollVeo_fetchError_terminal (apiKey msg : String) (rest : List PollResult)
    (n : Nat) :
    pollVeoOperation apiKey ⟨false, none⟩
        (List.replicate n (.ok ⟨false, none⟩) ++ .fetchError msg :: rest)
      = pollVeoOperation apiKey ⟨false, none⟩ (List.replicate n (.ok ⟨false, none⟩)) ++
          [{ progress := 100, message := "Polling failed.", videoUrl := none,
             error := some msg }] := by
  rw [pollVeoOperation, pollVeoOperation, pollLoop_fetchError_append]
  rfl

/-! ## Live session playback scheduling (`startLiveConversation`, `onmessage`) -/

/-- A playback buffer scheduled on the output audio context: its scheduled
start time and its duration, in seconds. -/
structure ScheduledSource where
  startTime : ℚ
  duration : ℚ
deriving Repr, DecidableEq

/-- The playback-scheduling state mutated by the `onmessage` handler:
the `nextStartTime` cursor and the `sources` set of scheduled buffers
(`src/services/geminiService.ts` lines 311–312). -/
structure PlaybackState where
  nextStartTime : ℚ
  sources : List ScheduledSource
deriving Repr, DecidableEq

/-- An inbound `LiveServerMessage` as inspected by the handler: the duration
of the decoded model-audio buffer when
`serverContent?.modelTurn?.parts[0]?.inlineData?.data` is present, and the
`serverContent?.interrupted` flag. -/
structure LiveMsg where
  audioDuration : Option ℚ
  interrupted : Bool
deriving Repr, DecidableEq

/-- The `onmessage` handler of `startLiveConversation`
(`src/services/geminiService.ts` lines 342–363): on an audio frame, clamp
`nextStartTime` up to the context's `currentTime` (`now`), schedule the
buffer at that time, advance `nextStartTime` by the buffer's duration and
add the source to the set; then, if the message carries the interruption
flag, stop and delete every scheduled source and reset `nextStartTime`
to 0. -/
def onmessage (now : ℚ) (msg : LiveMsg) (st : PlaybackState) : PlaybackState :=
  let st1 :=
    match msg.audioDuration with
    | some d =>
        let t := max st.nextStartTime now
        { nextStartTime := t + d, sources := st.sources ++ [⟨t, d⟩] }
    | none => st
  if msg.interrupted then { nextStartTime := 0, sources := [] } else st1

/-- C5. Handling an inbound audio frame schedules it at
`max nextStartTime now` and advances `nextStartTime` by the buffer's
duration; consequently a second frame handled at `now'` starts at
`max (previous start + previous duration) now'` — back-to-back, clamped to
be no earlier than "now". -/
theorem onmessage_schedules_back_to_back (st : PlaybackState) (now now' d d' : ℚ)
    (msg msg' : LiveMsg)
    (haudio : msg.audioDuration = some d) (hint : msg.interrupted = false)
    (haudio' : msg'.audioDuration = some d') (hint' : msg'.interrupted = false) :
    (onmessage now msg st).sources =
        st.sources ++ [⟨max st.nextStartTime now, d⟩] ∧
    (onmessage now msg st).nextStartTime = max st.nextStartTime now + d ∧
    (onmessage now' msg' (onmessage now msg st)).sources =
        st.sources ++ [⟨max st.nextStartTime now, d⟩,
          ⟨max (max st.nextStartTime now + d) now', d'⟩] := by
  simp [onmessage, haudio, hint, haudio', hint']

/-- Witness for C5 on concrete frames: two 1-second buffers arriving at
times 2 and 2.5 into an initial state. -/
theorem onmessage_schedules_back_to_back_witness :
    (onmessage 2 ⟨some 1, false⟩ ⟨0, []⟩).sources = [] ++ [⟨max 0 2, 1⟩] ∧
    (onmessage 2 ⟨some 1, false⟩ ⟨0, []⟩).nextStartTime = max 0 2 + 1 ∧
    (onmessage (5/2) ⟨some 1, false⟩ (onmessage 2 ⟨some 1, false⟩ ⟨0, []⟩)).sources =
      [] ++ [⟨max 0 2, 1⟩, ⟨max (max 0 2 + 1) (5/2), 1⟩] :=
  onmessage_schedules_back_to_back ⟨0, []⟩ 2 (5/2) 1 1 ⟨some 1, false⟩
    ⟨some 1, false⟩ rfl rfl rfl rfl

/-- C6. After a message carrying the interruption flag, the scheduled-source
set is empty and `nextStartTime` is 0; the next audio frame handled at any
time `now' ≥ 0` is scheduled at `now'` itself, not after the discarded
buffers. -/
theorem onmessage_interrupted_reset (st : PlaybackState) (now : ℚ) (msg : LiveMsg)
    (hint : msg.interrupted = true) :
    (onmessage now msg st).sources = [] ∧
    (onmessage now msg st).nextStartTime = 0 ∧
    (∀ (now' d : ℚ) (msg' : LiveMsg), msg'.audioDuration = some d →
      msg'.interrupted = false → 0 ≤ now' →
      (onmessage now' msg' (onmessage now msg st)).sources = [⟨now', d⟩]) := by
  refine ⟨by simp [onmessage, hint], by simp [onmessage, hint], ?_⟩
  intro now' d msg' haudio' hint' hnow
  simp [onmessage, hint, haudio', hint', max_eq_right hnow]

/-- Witness for C6: an interruption wiping two scheduled buffers, then a
fresh frame at time 7. -/
theorem onmessage_interrupted_reset_witness :
    (onmessage 3 ⟨none, true⟩ ⟨4, [⟨0, 2⟩, ⟨2, 2⟩]⟩).sources = [] ∧
    (onmessage 3 ⟨none, true⟩ ⟨4, [⟨0, 2⟩, ⟨2, 2⟩]⟩).nextStartTime = 0 ∧
    (onmessage 7 ⟨some 1, false⟩
        (onmessage 3 ⟨none, true⟩ ⟨4, [⟨0, 2⟩, ⟨2, 2⟩]⟩)).sources = [⟨7, 1⟩] := by
  have h := onmessage_interrupted_reset ⟨4, [⟨0, 2⟩, ⟨2, 2⟩]⟩ 3 ⟨none, true⟩ rfl
  exact ⟨h.1, h.2.1, h.2.2 7 1 ⟨some 1, false⟩ rfl rfl (by norm_num)⟩

/-! ## Live session `close()` -/

/-- Lifecycle state of one releasable resource captured by the live
session. -/
inductive ResState where
  | allocated
  | released
deriving Repr, DecidableEq

/-- `ScriptProcessorNode.disconnect()`: never throws; disconnecting an
already-disconnected node is a no-op. -/
def disconnectNode (_ : ResState) : Except String ResState := .ok .released

/-- `AudioContext.close()`: returns a promise and never throws
synchronously; closing an already-closed context leaves it closed (the
returned promise, which the code does not await, is rejected). -/
def closeContext (_ : ResState) : Except String ResState := .ok .released

/-- `MediaStreamTrack.stop()` over all tracks of the stream: never throws;
stopping an ended track is a no-op. -/
def stopTracks (_ : ResState) : Except String ResState := .ok .released

/-- `session.close()` on the remote live session. -/
def closeRemoteSession (_ : ResState) : Except String ResState := .ok .released

/-- The resources captured by `startLiveConversation`.  `scriptProcessor`,
`inputContext` and `micTracks` are `Option`s because the corresponding
variables are `null` until the `onopen` callback runs (the code guards them
with optional chaining `?.`). -/
structure SessionResources where
  scriptProcessor : Option ResState
  inputContext : Option ResState
  micTracks : Option ResState
  outputContext : ResState
  remoteSession : ResState
deriving Repr, DecidableEq

/-- Apply a release primitive through optional chaining: a `null` resource
is skipped without error. -/
def releaseOpt (f : ResState → Except String ResState) :
    Option ResState → Except String (Option ResState)
  | none => .ok none
  | some s => (f s).map some

/-- The `close` closure returned by `startLiveConversation`
(`src/services/geminiService.ts` lines 379–385): disconnect the script
processor, close the input audio context, stop the microphone tracks, close
the output audio context, close the remote session — each via the browser
and SDK primitives above, with no guard against repeated invocation. -/
def closeLiveSession (r : SessionResources) : Except String SessionResources := do
  let sp ← releaseOpt disconnectNode r.scriptProcessor
  let ic ← releaseOpt closeContext r.inputContext
  let tr ← releaseOpt stopTracks r.micTracks
  let oc ← closeContext r.outputContext
  let se ← closeRemoteSession r.remoteSession
  pure { scriptProcessor := sp, inputContext := ic, micTracks := tr,
         outputContext := oc, remoteSession := se }

/-- C7. `close()` is idempotent: on any resource state it returns without an
error, leaves every present resource released, and invoking it twice in a
row raises nothing and yields the same released-resource state as invoking
it once. -/
theorem closeLiveSession_idempotent (r : SessionResources) :
    closeLiveSession r =
      .ok { scriptProcessor := r.scriptProcessor.map fun _ => .released,
            inputContext := r.inputContext.map fun _ => .released,
            micTracks := r.micTracks.map fun _ => .released,
            outputContext := .released, remoteSession := .released } ∧
    (closeLiveSession r).bind closeLiveSession = closeLiveSession r := by
  rcases r with ⟨sp, ic, tr, oc, se⟩
  cases sp <;> cases ic <;> cases tr <;> exact ⟨rfl, rfl⟩

/-! ## PCM frame decoding (`decodeAudioData`) -/

/-- Errors the browser can raise inside `decodeAudioData`: `RangeError` from
the `Int16Array` constructor on an odd byte length, `NotSupportedError` from
`AudioContext.createBuffer` on a zero frame count or an unsupported channel
count. -/
inductive JsError where
  | rangeError
  | notSupportedError
deriving Repr, DecidableEq

/-- Two little-endian bytes as one signed 16-bit sample, as
`new Int16Array(data.buffer)` reinterprets the byte buffer. -/
def toInt16 (lo hi : Nat) : Int :=
  let u := lo % 256 + 256 * (hi % 256)
  if u < 32768 then (u : Int) else (u : Int) - 65536

/-- The `Int16Array` view of the byte buffer: `none` models the `RangeError`
the constructor throws when the byte length is not a multiple of 2. -/
def int16View : List Nat → Option (List Int)
  | [] => some []
  | [_] => none
  | lo :: hi :: rest => (int16View rest).map (toInt16 lo hi :: ·)

/-- `decodeAudioData` from `src/services/geminiService.ts` (lines 29–46):
reinterpret the bytes as 16-bit signed little-endian samples, then build a
`numChannels`-channel buffer of `frameCount = dataInt16.length / numChannels`
frames (the JS float quotient truncated by `createBuffer`'s `unsigned long`
conversion), de-interleaving into per-channel arrays normalised by 32768.
The write loop's out-of-range stores (when the quotient is fractional) are
ignored by the `Float32Array`, so surplus samples are dropped.
`createBuffer` raises `NotSupportedError` when the frame count is 0 or the
channel count is 0 or above 32.  The sample-rate argument is forwarded
unchecked in the modelled range (the code always passes 24000). -/
def decodeAudioData (data : List Nat) (numChannels : Nat) :
    Except JsError (List (List ℚ)) :=
  match int16View data with
  | none => .error .rangeError
  | some samples =>
      let frameCount := if numChannels = 0 then 0 else samples.length / numChannels
      if numChannels = 0 ∨ 32 < numChannels ∨ frameCount = 0 then
        .error .notSupportedError
      else
        .ok ((List.range numChannels).map fun c =>
          (List.range frameCount).map fun i =>
            ((samples.getD (i * numChannels + c) 0 : ℚ) / 32768))

/-- C9, counterexample: a 6-byte payload with 2 channels — 6 is not a
multiple of `channels * 2 = 4`, yet decoding succeeds (with the surplus
sample silently dropped) instead of failing. -/
theorem decodeAudioData_unaligned_succeeds :
    (List.replicate 6 0).length % (2 * 2) ≠ 0 ∧
      decodeAudioData (List.replicate 6 0) 2 = .ok [[0], [0]] := by
  constructor
  · decide
  · show decodeAudioData [0, 0, 0, 0, 0, 0] 2 = .ok [[0], [0]]
    norm_num [decodeAudioData, int16View, toInt16, List.range_succ]

theorem int16View_eq_none_iff (data : List Nat) :
    int16View data = none ↔ data.length % 2 = 1 := by
  induction data using int16View.induct with
  | case1 => rw [int16View]; simp
  | case2 a => rw [int16View]; simp
  | case3 lo hi rest ih =>
      rw [int16View, Option.map_eq_none', ih]
      simp only [List.length_cons]
      omega

theorem int16View_length (data : List Nat) (samples : List Int)
    (h : int16View data = some samples) : samples.length = data.length / 2 := by
  induction data using int16View.induct generalizing samples with
  | case1 => simp [int16View] at h; simp [← h]
  | case2 a => simp [int16View] at h
  | case3 lo hi rest ih =>
      rw [int16View] at h
      cases hr : int16View rest with
      | none => rw [hr] at h; simp at h
      | some tail =>
          rw [hr] at h
          simp only [Option.map_some', Option.some.injEq] at h
          subst h
          simp [ih tail hr]
          omega

/-- C9, amended. An odd byte length fails (with the typed-array
`RangeError`, there being no `MalformedAudioError` in the code); an even
byte length with a valid channel count and at least one full frame succeeds,
with channel count `numChannels` and frame count
`⌊(byteLength / 2) / numChannels⌋` — surplus samples beyond the last full
frame are dropped rather than rejected. -/
theorem decodeAudioData_alignment (data : List Nat) (ch : Nat) :
    (data.length % 2 = 1 → decodeAudioData data ch = .error .rangeError) ∧
    (data.length % 2 = 0 → 1 ≤ ch → ch ≤ 32 → 1 ≤ data.length / 2 / ch →
      ∃ chans, decodeAudioData data ch = .ok chans ∧ chans.length = ch ∧
        ∀ c ∈ chans, c.length = data.length / 2 / ch) := by
  constructor
  · intro hodd
    rw [decodeAudioData.eq_def, (int16View_eq_none_iff data).mpr hodd]
  · intro heven hch hch32 hframes
    cases hv : int16View data with
    | none => rw [int16View_eq_none_iff] at hv; omega
    | some samples =>
        have hlen : samples.length = data.length / 2 := int16View_length data samples hv
        rw [decodeAudioData.eq_def, hv]
        dsimp only
        have hch0 : ¬ ch = 0 := by omega
        rw [if_neg hch0]
        have hcond : ¬(ch = 0 ∨ 32 < ch ∨ samples.length / ch = 0) := by
          rw [hlen]
          push_neg
          exact ⟨by omega, by omega, by omega⟩
        rw [if_neg hcond]
        refine ⟨_, rfl, by simp, ?_⟩
        intro c hc
        simp only [List.mem_map] at hc
        obtain ⟨j, _, rfl⟩ := hc
        simp [hlen]

/-- Witness for C9's amended theorem: an odd 3-byte payload raises
`RangeError`; an aligned 4-byte stereo payload yields 2 channels of 1 frame
each. -/
theorem decodeAudioData_alignment_witness :
    ([0, 0, 0] : List Nat).length % 2 = 1 ∧
      decodeAudioData [0, 0, 0] 2 = .error .rangeError ∧
      (([0, 0, 0, 0] : List Nat).length % 2 = 0 ∧ 1 ≤ 2 ∧ 2 ≤ 32 ∧
        1 ≤ ([0, 0, 0, 0] : List Nat).length / 2 / 2) ∧
      ∃ chans, decodeAudioData [0, 0, 0, 0] 2 = .ok chans ∧ chans.length = 2 ∧
        ∀ c ∈ chans, c.length = ([0, 0, 0, 0] : List Nat).length / 2 / 2 :=
  ⟨by decide, (decodeAudioData_alignment [0, 0, 0] 2).1 (by decide),
    ⟨by decide, by decide, by decide, by decide⟩,
    (decodeAudioData_alignment [0, 0, 0, 0] 2).2 (by decide) (by decide)
      (by decide) (by decide)⟩

/-! ## Opening the live session (`startLiveConversation`) -/

/-- The live-session handle returned to the caller of
`startLiveConversation`; `captureEstablished` records whether the `onopen`
callback completed and installed the microphone capture pipeline. -/
structure LiveHandle where
  captureEstablished : Bool
deriving Repr, DecidableEq

/-- Errors that could surface from opening the live session.  `micError` is
the spec's dedicated `MicrophoneError`; `raw` is an unwrapped exception
passed through as-is.  The source constructs no microphone-specific error
value anywhere. -/
inductive OpenError where
  | micError (msg : String)
  | raw (msg : String)
deriving Repr, DecidableEq

/-- Outcome of the async `onopen` callback
(`src/services/geminiService.ts` lines 317–341): on a microphone grant it
installs the capture pipeline; on denial `getUserMedia` rejects with the
browser's `NotAllowedError`, and the callback body contains no handler that
wraps or converts this rejection. -/
def onopenOutcome (micGranted : Bool) : Except OpenError Unit :=
  if micGranted then .ok () else .error (.raw "NotAllowedError: Permission denied")

/-- Dispatch of the `onopen` callback by the external SDK's `live.connect`:
`swallow` — the SDK fires the callback without awaiting its returned
promise, so a rejection inside it never reaches `sessionPromise` (the
dispatch of the shipped SDK); `propagate` — the hypothetical alternative in
which the callback's rejection fails the connect promise.  The source
attaches no rejection handler of its own to the `onopen` path, so these are
the only two possibilities, and the theorems below cover both. -/
inductive SdkPolicy where
  | swallow
  | propagate
deriving Repr, DecidableEq

/-- `startLiveConversation` (`src/services/geminiService.ts` lines 304–387)
as observed by its caller: `ai.live.connect` resolves with the session once
the socket opens, the `onopen` callback runs, and `await sessionPromise`
yields the handle — rejecting only if the dispatch policy propagates the
callback's rejection.  No exit path produces a microphone-specific error
value. -/
def startLiveConversationOpen (policy : SdkPolicy) (micGranted : Bool) :
    Except OpenError LiveHandle :=
  match onopenOutcome micGranted, policy with
  | .ok _, _ => .ok { captureEstablished := true }
  | .error _, .swallow => .ok { captureEstablished := false }
  | .error e, .propagate => .error e

/-- Whether an open outcome is the spec's `MicrophoneError`. -/
def isMicError : Except OpenError LiveHandle → Bool
  | .error (.micError _) => true
  | _ => false

/-- C8, counterexample: with the microphone denied, under the shipped SDK's
callback dispatch the open still resolves with a session handle (whose
capture pipeline was never established) — it neither fails nor produces a
`MicrophoneError`. -/
theorem startLive_micDenied_counterexample :
    startLiveConversationOpen .swallow false = .ok { captureEstablished := false } ∧
      isMicError (startLiveConversationOpen .swallow false) = false :=
  ⟨rfl, rfl⟩

/-- C8, amended. A microphone-capture failure during open never produces a
`MicrophoneError`: under the shipped SDK dispatch the open resolves with a
handle lacking the capture pipeline, and even under a propagating dispatch
the raw `getUserMedia` rejection surfaces unwrapped. -/
theorem startLive_micDenied_amended (p : SdkPolicy) :
    startLiveConversationOpen .swallow false = .ok { captureEstablished := false } ∧
    startLiveConversationOpen .propagate false =
      .error (.raw "NotAllowedError: Permission denied") ∧
    isMicError (startLiveConversationOpen p false) = false := by
  cases p <;> exact ⟨rfl, rfl, rfl⟩

/-! ## Microphone capture float-to-int16 conversion -/

/-- JS truncation toward zero, the first step of `ToInt16` when a number is
stored into an `Int16Array` element. -/
def jsTrunc (x : ℚ) : Int := if 0 ≤ x then ⌊x⌋ else ⌈x⌉

/-- JS `ToInt16`: truncate toward zero, reduce modulo 2^16, reinterpret the
residue as a two's-complement 16-bit value. -/
def jsToInt16 (x : ℚ) : Int :=
  let m := jsTrunc x % 65536
  if m < 32768 then m else m - 65536

/-- The microphone capture path's sample conversion
(`src/services/geminiService.ts` lines 326–329):
`int16[i] = inputData[i] * 32768`, stored into an `Int16Array` without
clamping. -/
def captureSample (x : ℚ) : Int := jsToInt16 (x * 32768)

/-- C10. The capture conversion multiplies by 32768 and stores the product
reduced modulo 2^16 (two's complement, range [-32768, 32767]) with no
clamping: the stored value is always congruent to the truncated product
modulo 2^16, and a full-scale sample of exactly 1.0 wraps to -32768 rather
than clamping to 32767. -/
theorem captureSample_mod_wrap (x : ℚ) :
    captureSample 1 = -32768 ∧
    -32768 ≤ captureSample x ∧ captureSample x < 32768 ∧
    (captureSample x - jsTrunc (x * 32768)) % 65536 = 0 := by
  refine ⟨?_, ?_⟩
  · show jsToInt16 ((1 : ℚ) * 32768) = -32768
    norm_num [jsToInt16, jsTrunc]
  · show -32768 ≤ jsToInt16 (x * 32768) ∧ jsToInt16 (x * 32768) < 32768 ∧
      (jsToInt16 (x * 32768) - jsTrunc (x * 32768)) % 65536 = 0
    rw [jsToInt16]
    generalize jsTrunc (x * 32768) = t
    refine ⟨?_, ?_, ?_⟩ <;> split <;> omega

end GeminiService
